import Mathlib

/-!
Verification development for the simple-mpc repository.

The development shallowly embeds, over ℚ, the parts of the code that the
specification talks about:

* the `CentroidalProblem` reference-pose / reference-force accessors of
  `lowlevel-control.cpp` (second translation unit, `centroidal-dynamics`),
* the `IDSolver` and `IKIDSolver` quadratic-program construction of
  `lowlevel-control.cpp` (first translation unit),
* the MPC horizon bookkeeping (foot-timing tables, horizon buffer, recede),
  whose implementation file is not part of the sources at hand and is
  therefore modelled from the specification text, anchored on the in-repo
  test `tests/mpc.cpp`.

Machine scalars of the source (`double`) are modelled as ℚ: every quantity
the claims mention is produced by exact arithmetic (no rounding is involved
in the claims), and ℚ keeps all definitions executable.  Eigen vectors are
modelled as `List ℚ` when the claims compare whole values, and as entry
functions `ℕ → ℚ` paired with explicit dimensions for the QP matrices.
-/

namespace SimpleMpc

/-- Error outcomes observable from the embedded operations.
`invalidArgument` models the `std::runtime_error` throws of the source
(the spec's `InvalidArgument` taxonomy class); `mapAt` models
`std::map::at` raising `std::out_of_range` for a missing key; `eigenOOB`
models an Eigen block/segment access whose run-time size assertion fails
(out-of-bounds segment). -/
inductive CErr where
  | invalidArgument
  | mapAt
  | eigenOOB
deriving DecidableEq, Repr

/-- Association-list lookup keyed by strings; models `std::map` reads and
`ContactMap` name lookup. -/
def lookupA {α : Type} : List (String × α) → String → Option α
  | [], _ => none
  | e :: rest, k => if e.1 = k then some e.2 else lookupA rest k

/-- Association-list update: every entry whose key matches is replaced.
Models `ContactMap::setContactPose` on a map that already holds the key. -/
def updateA {α : Type} (m : List (String × α)) (k : String) (v : α) :
    List (String × α) :=
  m.map fun e => if e.1 = k then (k, v) else e

/-- `std::find` index of a name: first index whose entry equals `k`, or the
length of the list when the name is absent (iterator-difference
`it - hname.begin()` of the source). -/
def eeIndex : List String → String → ℕ
  | [], _ => 0
  | n :: rest, k => if n = k then 0 else eeIndex rest k + 1

/-- `v.segment(start, len) = f` of Eigen, with Eigen's run-time assertions:
the assigned vector must have length `len` and the segment must lie inside
`v`; otherwise the access is out of bounds. -/
def segSet (v : List ℚ) (start len : ℕ) (f : List ℚ) : Except CErr (List ℚ) :=
  if f.length = len ∧ start + len ≤ v.length then
    Except.ok (v.take start ++ f ++ v.drop (start + len))
  else Except.error CErr.eigenOOB

/-- `v.segment(start, len)` read of Eigen, with its run-time bound
assertion. -/
def segGet (v : List ℚ) (start len : ℕ) : Except CErr (List ℚ) :=
  if start + len ≤ v.length then Except.ok ((v.drop start).take len)
  else Except.error CErr.eigenOOB

/-- An SE(3) element, stored as a row-major 3×3 rotation and a translation,
both over ℚ. -/
structure SE3 where
  rot : List ℚ
  trans : List ℚ
deriving DecidableEq, Repr

/-- The identity rotation (`pinocchio::SE3::Identity()` rotation part). -/
def idRot : List ℚ := [1, 0, 0, 0, 1, 0, 0, 0, 1]

/-- One stage of the centroidal problem, keeping the parts the accessors
touch: the contact-placement map of the stage's `CentroidalFwdDynamics`,
the contact maps of the two acceleration residuals (updated in lock-step by
the pose setters), and the target of the stage's `control_cost`
(`QuadraticControlCost`). -/
structure CStage where
  dynMap : List (String × List ℚ)
  carMap : List (String × List ℚ)
  aarMap : List (String × List ℚ)
  controlRef : List ℚ
deriving DecidableEq, Repr

/-- Default stage used as the out-of-range placeholder of `List.getD`
(never reached under the index checks). -/
def cstage0 : CStage := ⟨[], [], [], []⟩

/-- The `CentroidalProblem` state visible to the accessors: the handler's
ordered foot-name list, the configured per-contact force dimension, the
shared mutable `control_ref_` member, and the stage vector. -/
structure CentroidalProblem where
  feetNames : List String
  force_size : ℕ
  control_ref : List ℚ
  stages : List CStage
deriving DecidableEq, Repr

namespace CentroidalProblem

/-- `CentroidalProblem::setReferencePose` (source lines 569–591): checks the
stage index, then writes the pose's *translation* into the stage dynamics'
contact map and into the contact maps of the linear/angular acceleration
residual costs.  The rotation part of `pose_ref` is never read. -/
def setReferencePose (p : CentroidalProblem) (t : ℕ) (ee : String)
    (pose_ref : SE3) : CentroidalProblem × Option CErr :=
  if p.stages.length ≤ t then (p, some CErr.invalidArgument)
  else
    let st := p.stages.getD t cstage0
    let st' : CStage :=
      { st with
        dynMap := updateA st.dynMap ee pose_ref.trans
        carMap := updateA st.carMap ee pose_ref.trans
        aarMap := updateA st.aarMap ee pose_ref.trans }
    ({ p with stages := p.stages.set t st' }, none)

/-- Inner loop of `setReferencePoses` (source lines 553–566): for each foot
name the two acceleration-residual contact maps receive
`pose_refs.at(ee_name).translation()`; a missing key makes `std::map::at`
throw mid-loop, leaving the maps partially updated. -/
def setAccMaps (prs : List (String × SE3)) :
    List String → List (String × List ℚ) → List (String × List ℚ) →
    (List (String × List ℚ)) × (List (String × List ℚ)) × Option CErr
  | [], car, aar => (car, aar, none)
  | n :: rest, car, aar =>
    match lookupA prs n with
    | none => (car, aar, some CErr.mapAt)
    | some q => setAccMaps prs rest (updateA car n q.trans) (updateA aar n q.trans)

/-- `CentroidalProblem::setReferencePoses` (source lines 533–567): checks
the stage index and that the pose map covers exactly the end effectors,
then updates the stage dynamics' contact map from every given pose and the
two residual maps from the handler's foot list. -/
def setReferencePoses (p : CentroidalProblem) (t : ℕ)
    (pose_refs : List (String × SE3)) : CentroidalProblem × Option CErr :=
  if p.stages.length ≤ t then (p, some CErr.invalidArgument)
  else if pose_refs.length ≠ p.feetNames.length then
    (p, some CErr.invalidArgument)
  else
    let st := p.stages.getD t cstage0
    let dyn' := pose_refs.foldl (fun m pr => updateA m pr.1 pr.2.trans) st.dynMap
    let r := setAccMaps pose_refs p.feetNames st.carMap st.aarMap
    ({ p with
        stages := p.stages.set t { st with dynMap := dyn', carMap := r.1, aarMap := r.2.1 } },
      r.2.2)

/-- `CentroidalProblem::getReferencePose` (source lines 593–607): checks
the stage index, then returns an SE(3) whose rotation is
`SE3::Identity()` and whose translation is the contact-map entry of the
stage dynamics. -/
def getReferencePose (p : CentroidalProblem) (t : ℕ) (ee : String) :
    Except CErr SE3 :=
  if p.stages.length ≤ t then Except.error CErr.invalidArgument
  else
    Except.ok ⟨idRot, (lookupA (p.stages.getD t cstage0).dynMap ee).getD []⟩

/-- Modelled from the spec: `Problem::setReferenceControl` lives in
`base-problem.cpp`, which is not among the sources at hand.  Per the spec's
error-handling design, stage-index errors are checked eagerly at the API
boundary; the operation stores the control reference (the
`QuadraticControlCost` target) of stage `t`. -/
def setReferenceControl (p : CentroidalProblem) (t : ℕ) (u : List ℚ) :
    CentroidalProblem × Option CErr :=
  if p.stages.length ≤ t then (p, some CErr.invalidArgument)
  else
    let st := p.stages.getD t cstage0
    ({ p with stages := p.stages.set t { st with controlRef := u } }, none)

/-- Modelled from the spec: `Problem::getReferenceControl` lives in
`base-problem.cpp`, not among the sources at hand; it returns stage `t`'s
stored control reference after the eager stage-index check. -/
def getReferenceControl (p : CentroidalProblem) (t : ℕ) :
    Except CErr (List ℚ) :=
  if p.stages.length ≤ t then Except.error CErr.invalidArgument
  else Except.ok (p.stages.getD t cstage0).controlRef

/-- Loop of `computeControlFromForces` (source lines 521–531) over foot
indices: each iteration checks the force dimension and writes the segment
`control_ref_.segment(i * force_size, force_size)`; an error part-way
through leaves the earlier segments written. -/
def computeCFFAux (fs : ℕ) (frefs : List (String × List ℚ)) :
    List String → ℕ → List ℚ → List ℚ × Option CErr
  | [], _, cr => (cr, none)
  | n :: rest, i, cr =>
    match lookupA frefs n with
    | none => (cr, some CErr.mapAt)
    | some f =>
      if fs ≠ f.length then (cr, some CErr.invalidArgument)
      else
        match segSet cr (i * fs) fs f with
        | Except.error e => (cr, some e)
        | Except.ok cr' => computeCFFAux fs frefs rest (i + 1) cr'

/-- `CentroidalProblem::computeControlFromForces` (source lines 521–531):
folds all per-foot reference forces into the shared `control_ref_`
member. -/
def computeControlFromForces (p : CentroidalProblem)
    (frefs : List (String × List ℚ)) : CentroidalProblem × Option CErr :=
  let r := computeCFFAux p.force_size frefs p.feetNames 0 p.control_ref
  ({ p with control_ref := r.1 }, r.2)

/-- `CentroidalProblem::setReferenceForces` (source lines 609–614): update
`control_ref_` from all forces, then store it as stage `t`'s control
reference. -/
def setReferenceForces (p : CentroidalProblem) (t : ℕ)
    (frefs : List (String × List ℚ)) : CentroidalProblem × Option CErr :=
  let r := computeControlFromForces p frefs
  match r.2 with
  | some e => (r.1, some e)
  | none => setReferenceControl r.1 t r.1.control_ref

/-- `CentroidalProblem::setReferenceForce` (source lines 616–626): look the
name up with `std::find` (yielding the list length when absent — no
validation), overwrite the corresponding segment of the shared
`control_ref_`, then store the whole vector as stage `t`'s control
reference.  Note the member is mutated *before* the stage-index check
performed inside `setReferenceControl`. -/
def setReferenceForce (p : CentroidalProblem) (t : ℕ) (ee : String)
    (force_ref : List ℚ) : CentroidalProblem × Option CErr :=
  let id := eeIndex p.feetNames ee
  match segSet p.control_ref (id * p.force_size) p.force_size force_ref with
  | Except.error e => (p, some e)
  | Except.ok cr' =>
    let p' := { p with control_ref := cr' }
    setReferenceControl p' t cr'

/-- `CentroidalProblem::getReferenceForce` (source lines 628–638): look the
name up with `std::find` (no validation), then read the corresponding
segment of stage `t`'s control reference. -/
def getReferenceForce (p : CentroidalProblem) (t : ℕ) (ee : String) :
    Except CErr (List ℚ) :=
  let id := eeIndex p.feetNames ee
  match getReferenceControl p t with
  | Except.error e => Except.error e
  | Except.ok u => segGet u (id * p.force_size) p.force_size

end CentroidalProblem

/-! ### MPC horizon bookkeeping (modelled from the spec)

The implementation file of class `MPC` (`mpc.cpp`) is not among the
sources at hand; only its unit test (`tests/mpc.cpp`) and python binding
are.  The definitions below are therefore modelled from the specification
(§4.1 Contact-Timing Tracker, §4.2 Horizon Buffer, §4.3 MPC Controller),
with the in-repo test `tests/mpc.cpp` fixing the one convention the spec
text leaves open (how a landing at the wrap-around point of the cyclic
schedule is indexed). -/

/-- Modelled from the spec: the per-end-effector takeoff table computed by
`MPC::generateCycleHorizon` (missing `mpc.cpp`).  A takeoff is a
true→false transition of the contact flag; the cycle schedule is appended
after the current `T`-step horizon, so an event at cycle position `i`
receives index `i + T`.  At the cyclic wrap (last entry back to first) the
event is recorded at the last cycle position, `P - 1 + T`, the convention
fixed by `tests/mpc.cpp`. -/
def footTakeoffs (cycle : List Bool) (T : ℕ) : List ℕ :=
  ((List.range cycle.length).filterMap fun i =>
    if 0 < i ∧ cycle.getD (i - 1) false = true ∧ cycle.getD i false = false
    then some (i + T) else none)
  ++ (if 0 < cycle.length ∧ cycle.getD (cycle.length - 1) false = true ∧
        cycle.getD 0 false = false
      then [cycle.length - 1 + T] else [])

/-- Modelled from the spec: the per-end-effector landing table computed by
`MPC::generateCycleHorizon` (missing `mpc.cpp`).  A landing is a
false→true transition; indexing as in `footTakeoffs`, with the wrap-around
landing recorded at `P - 1 + T` (`tests/mpc.cpp` expects 219 for the left
foot of the 120-step cycle with `T = 100`). -/
def footLandings (cycle : List Bool) (T : ℕ) : List ℕ :=
  ((List.range cycle.length).filterMap fun i =>
    if 0 < i ∧ cycle.getD (i - 1) false = false ∧ cycle.getD i false = true
    then some (i + T) else none)
  ++ (if 0 < cycle.length ∧ cycle.getD (cycle.length - 1) false = false ∧
        cycle.getD 0 false = true
      then [cycle.length - 1 + T] else [])

/-- Modelled from the spec: one recede step on a foot-timing table
(`MPC::recedeWithCycle`, missing `mpc.cpp`): every index is decremented by
one; an index that already reached 0 (an event at the current instant)
falls off the front and is recomputed from the period-`P` cycle as its
next occurrence, `P - 1` after the shift. -/
def recedeTimes (P : ℕ) (ts : List ℕ) : List ℕ :=
  ts.map fun k => if k = 0 then P - 1 else k - 1

/-- `n` recede steps on a foot-timing table (one per `MPC::iterate`). -/
def recedeTimesN (P : ℕ) : ℕ → List ℕ → List ℕ
  | 0, ts => ts
  | n + 1, ts => recedeTimesN P n (recedeTimes P ts)

/-- The two-foot cyclic contact schedule built by the tests in
`tests/mpc.cpp` (lines 46–70): 10 double-support steps, 50 left-support
steps, 10 double-support steps, 50 right-support steps; the first
component is the left foot's contact flag, the second the right foot's. -/
def gaitCycle : List (Bool × Bool) :=
  List.replicate 10 (true, true) ++ List.replicate 50 (true, false) ++
  List.replicate 10 (true, true) ++ List.replicate 50 (false, true)

/-- Left-foot contact flags of `gaitCycle`. -/
def leftContacts : List Bool := gaitCycle.map Prod.fst

/-- Right-foot contact flags of `gaitCycle`. -/
def rightContacts : List Bool := gaitCycle.map Prod.snd

/-- One contact phase: the per-end-effector in-contact flags of one time
step (`std::map<std::string, bool>` of the source). -/
def Phase := List (String × Bool)
deriving DecidableEq

/-- Modelled from the spec: MPC controller state (missing `mpc.cpp`) —
configured horizon length `T`, the reference contact schedule with the
cyclic read position, the horizon buffer's running stages (the terminal
stage is kept besides them), and the warm-start trajectories `xs_`
(`T + 1` states) and `us_` (`T` controls). -/
structure MPCState where
  T : ℕ
  sched : List Phase
  pos : ℕ
  running : List Phase
  xs : List (List ℚ)
  us : List (List ℚ)

/-- Horizon-buffer error outcomes. -/
inductive MPCErr where
  | invalidArgument
deriving DecidableEq, Repr

/-- Modelled from the spec: the MPC constructor binds the optimizer to the
initial `T`-stage problem and allocates `xs_` with `T + 1` entries and
`us_` with `T` entries (checked by `tests/mpc.cpp` lines 43–44 right after
construction). -/
def initMPCState (T : ℕ) (x0 u0 : List ℚ) (stages : List Phase) : MPCState :=
  { T := T, sched := stages, pos := T, running := stages.take T,
    xs := List.replicate (T + 1) x0, us := List.replicate T u0 }

/-- Modelled from the spec: `MPC::generateFullHorizon` (missing
`mpc.cpp`) fails with `InvalidArgument` when the schedule is shorter than
`T` and otherwise rebuilds the whole buffer, one running stage per
schedule entry up to `T` (plus the terminal stage). -/
def generateFullHorizon (m : MPCState) (cs : List Phase) :
    Except MPCErr MPCState :=
  if cs.length < m.T then Except.error MPCErr.invalidArgument
  else Except.ok { m with sched := cs, pos := m.T, running := cs.take m.T }

/-- Modelled from the spec: `MPC::recede` (missing `mpc.cpp`) shifts the
buffer left by one, drops stage 0, appends one stage built from the next
entry of the cyclically-repeating reference schedule, and warm-starts the
trajectories by shifting them one step and repeating the terminal
state/control. -/
def recedeMPC (m : MPCState) : MPCState :=
  { m with
    running := m.running.tail ++ [m.sched.getD (m.pos % m.sched.length) []]
    pos := m.pos + 1
    xs := m.xs.tail ++ [(m.xs.getLast?).getD []]
    us := m.us.tail ++ [(m.us.getLast?).getD []] }

/-- Modelled from the spec: `MPC::iterate` (missing `mpc.cpp`) injects the
measured state into stage 0, runs the embedded optimizer (a black box that
refines each stage's state and control in place — parameters `f` and `g`),
and recedes the horizon for the next cycle. -/
def iterateMPC (f g : List ℚ → List ℚ) (x : List ℚ) (m : MPCState) :
    MPCState :=
  recedeMPC { m with xs := (x :: m.xs.tail).map f, us := m.us.map g }

/-- `n` consecutive `MPC::iterate` calls with a fixed measured state. -/
def iterateMPCN (f g : List ℚ → List ℚ) (x : List ℚ) :
    ℕ → MPCState → MPCState
  | 0, m => m
  | n + 1, m => iterateMPCN f g x n (iterateMPC f g x m)

/-- The trajectory/buffer shape invariant of the MPC state: `T` running
stages and matching warm-start trajectory lengths. -/
def wfMPC (m : MPCState) : Prop :=
  m.running.length = m.T ∧ m.xs.length = m.T + 1 ∧ m.us.length = m.T

/-- The horizon buffer's stage count: the running stages plus the terminal
stage. -/
def horizonStageCount (m : MPCState) : ℕ := m.running.length + 1

/-! ### The inverse-dynamics QP solvers (`lowlevel-control.cpp`) -/

/-- A dense matrix with explicit dimensions and an entry function (Eigen
`MatrixXd`).  Entry values outside `rows × cols` are irrelevant. -/
structure Matf where
  rows : ℕ
  cols : ℕ
  entry : ℕ → ℕ → ℚ

/-- A dense vector with explicit size and an entry function (Eigen
`VectorXd`). -/
structure Vecf where
  size : ℕ
  entry : ℕ → ℚ

/-- Dot product of the first `n` entries of two entry functions. -/
def dot (n : ℕ) (f g : ℕ → ℚ) : ℚ :=
  ((List.range n).map fun k => f k * g k).sum

/-- Sum of `f 0 + ... + f (n - 1)`. -/
def sumOver (n : ℕ) (f : ℕ → ℚ) : ℚ :=
  ((List.range n).map f).sum

/-- The kinematic quantities the solvers read from `pinocchio::Data` (and
`pinocchio::Model` frame accessors): bias forces `nle`, frame Jacobians
and their time variations in the `LOCAL_WORLD_ALIGNED` and `LOCAL`
conventions (indexed frame id → row 0..5 → column), frame spatial
velocities, and the centroidal momentum matrix `Ag` with its time
derivative.  All are opaque inputs of the QP construction. -/
structure PinData where
  nle : ℕ → ℚ
  jacLWA : ℕ → ℕ → ℕ → ℚ
  jacDotLWA : ℕ → ℕ → ℕ → ℚ
  velLinLWA : ℕ → ℕ → ℚ
  velAngLWA : ℕ → ℕ → ℚ
  jacLoc : ℕ → ℕ → ℕ → ℚ
  jacDotLoc : ℕ → ℕ → ℕ → ℚ
  Ag : ℕ → ℕ → ℚ
  dAg : ℕ → ℕ → ℚ

/-- The `IDSettings` fields the inverse-dynamics QP reads. -/
structure IDSettings where
  contact_ids : List ℕ
  force_size : ℕ
  mu : ℚ
  Lfoot : ℚ
  Wfoot : ℚ
  w_acc : ℚ
  w_force : ℚ
  kd : ℚ

/-- `nk_ = contact_ids.size()` of `IDSolver::initialize`. -/
def nkID (s : IDSettings) : ℕ := s.contact_ids.length

/-- `force_dim_ = force_size * nk_`. -/
def fdimID (s : IDSettings) : ℕ := s.force_size * nkID s

/-- Decision-variable count `n = 2 * nv - 6 + force_dim_`. -/
def nDecID (s : IDSettings) (nv : ℕ) : ℕ := 2 * nv - 6 + fdimID s

/-- Equality-constraint count `neq = nv + force_dim_`. -/
def nEqID (s : IDSettings) (nv : ℕ) : ℕ := nv + fdimID s

/-- The 9×3 friction-cone generator of `IDSolver::initialize` /
`IKIDSolver::initialize` for `force_size == 3` (rows of the comma
initializer, row-major). -/
def Cmin3 (mu : ℚ) : ℕ → ℕ → ℚ := fun r c =>
  match r, c with
  | 0, 0 => -1 | 0, 2 => mu
  | 1, 0 => 1 | 1, 2 => mu
  | 2, 0 => -1 | 2, 2 => mu
  | 3, 0 => 1 | 3, 2 => mu
  | 4, 2 => 1
  | 5, 2 => 1
  | 6, 2 => 1
  | 7, 2 => 1
  | 8, 2 => 1
  | _, _ => 0

/-- The 9×6 wrench-cone generator of the initializers for
`force_size == 6` (row-major comma initializer with torsional and
center-of-pressure rows parameterized by foot width/length). -/
def Cmin6 (mu W L : ℚ) : ℕ → ℕ → ℚ := fun r c =>
  match r, c with
  | 0, 0 => -1 | 0, 2 => mu
  | 1, 0 => 1 | 1, 2 => mu
  | 2, 0 => -1 | 2, 2 => mu
  | 3, 0 => 1 | 3, 2 => mu
  | 4, 2 => 1
  | 5, 2 => W | 5, 3 => -1
  | 6, 2 => W | 6, 3 => 1
  | 7, 2 => L | 7, 4 => -1
  | 8, 2 => L | 8, 4 => 1
  | _, _ => 0

/-- The fixed constraint-generator matrix `Cmin_`, built once at
initialization from the friction coefficient and, for wrench contacts,
the foot width/length. -/
def coneGen (fs : ℕ) (mu W L : ℚ) : ℕ → ℕ → ℚ :=
  if fs = 3 then Cmin3 mu else Cmin6 mu W L

/-- `Cmin_` of `IDSolver`. -/
def CminID (s : IDSettings) : ℕ → ℕ → ℚ :=
  coneGen s.force_size s.mu s.Wfoot s.Lfoot

/-- The inequality matrix `C_` as rebuilt by `computeMatrice` (source
lines 103, 140–142 for `IDSolver`; 342, 381 for `IKIDSolver`): zeroed,
then for every *active* contact `i` the 9×fs block at rows `9 i` and
columns `nv + i * fs` is set to `Cmin_`. -/
def coneCMat (nk fs nv : ℕ) (Cm : ℕ → ℕ → ℚ) (cs : List Bool) : Matf :=
  ⟨9 * nk, 2 * nv - 6 + fs * nk, fun r c =>
    let i := r / 9
    if i < nk ∧ cs.getD i false = true ∧ nv + i * fs ≤ c ∧
        c < nv + i * fs + fs
    then Cm (r % 9) (c - (nv + i * fs)) else 0⟩

/-- Row `j` of the lower-bound block for contact `i` (`l_.segment(i*9, 9)`
comma expression, source lines 121–138 / 370–379), reading the reference
forces. -/
def coneLRow (fs : ℕ) (mu W L : ℚ) (forces : ℕ → ℚ) (i j : ℕ) : ℚ :=
  let b := i * fs
  match j with
  | 0 => forces b - forces (b + 2) * mu
  | 1 => -forces b - forces (b + 2) * mu
  | 2 => forces (b + 1) - forces (b + 2) * mu
  | 3 => -forces (b + 1) - forces (b + 2) * mu
  | 4 => -forces (b + 2)
  | 5 => forces (b + 3) - forces (b + 2) * W
  | 6 => -forces (b + 3) - forces (b + 2) * W
  | 7 => forces (b + 4) - forces (b + 2) * L
  | 8 => -forces (b + 4) - forces (b + 2) * L
  | _ => 0

/-- The inequality lower bound `l_` as rebuilt by `computeMatrice`: zeroed,
then filled per active contact. -/
def coneLVec (nk fs : ℕ) (mu W L : ℚ) (cs : List Bool) (forces : ℕ → ℚ) :
    Vecf :=
  ⟨9 * nk, fun r =>
    let i := r / 9
    if i < nk ∧ cs.getD i false = true then coneLRow fs mu W L forces i (r % 9)
    else 0⟩

/-- `C_` after `IDSolver::computeMatrice`. -/
def computeCID (s : IDSettings) (nv : ℕ) (cs : List Bool) : Matf :=
  coneCMat (nkID s) s.force_size nv (CminID s) cs

/-- `l_` after `IDSolver::computeMatrice`. -/
def computeLID (s : IDSettings) (cs : List Bool) (forces : ℕ → ℚ) : Vecf :=
  coneLVec (nkID s) s.force_size s.mu s.Wfoot s.Lfoot cs forces

/-- The stacked contact Jacobian `Jc_` of `IDSolver::computeMatrice`
(source lines 100, 112–115): zeroed, then for each active contact the
first `force_size` rows of the `LOCAL_WORLD_ALIGNED` frame Jacobian. -/
def computeJcID (s : IDSettings) (data : PinData) (cs : List Bool) :
    ℕ → ℕ → ℚ := fun r c =>
  let i := r / s.force_size
  if i < nkID s ∧ cs.getD i false = true then
    data.jacLWA (s.contact_ids.getD i 0) (r % s.force_size) c
  else 0

/-- The Baumgarte-corrected drift `gamma_` of `IDSolver::computeMatrice`
(source lines 101, 116–119): per active contact,
`Jdot.topRows(fs) * v` plus, on the first three components,
`kd * (linear velocity) + kd * (angular velocity)` (`baum_gains_` is the
diagonal matrix `kd · I₃`). -/
def computeGammaID (s : IDSettings) (nv : ℕ) (data : PinData)
    (cs : List Bool) (v : ℕ → ℚ) : ℕ → ℚ := fun r =>
  let i := r / s.force_size
  let j := r % s.force_size
  if i < nkID s ∧ cs.getD i false = true then
    dot nv (data.jacDotLWA (s.contact_ids.getD i 0) j) v +
      (if j < 3 then
        s.kd * data.velLinLWA (s.contact_ids.getD i 0) j +
          s.kd * data.velAngLWA (s.contact_ids.getD i 0) j
      else 0)
  else 0

/-- The equality matrix `A_` after `IDSolver::computeMatrice` (source
lines 145–148): `[M, -Jcᵀ, -S; Jc, 0, 0]`, where `S` selects the actuated
joints (identity on the last `nv - 6` rows).  The zero bottom-right block
is never written after initialization. -/
def computeAID (s : IDSettings) (nv : ℕ) (data : PinData) (cs : List Bool)
    (M : ℕ → ℕ → ℚ) : Matf :=
  ⟨nv + fdimID s, nDecID s nv, fun r c =>
    if r < nv then
      if c < nv then M r c
      else if c < nv + fdimID s then -(computeJcID s data cs (c - nv) r)
      else -(if r = c - nv - fdimID s + 6 then (1 : ℚ) else 0)
    else
      if c < nv then computeJcID s data cs (r - nv) c else 0⟩

/-- The equality right-hand side `b_` after `IDSolver::computeMatrice`
(source lines 150–151): `[-nle - M a + Jcᵀ f; -γ - Jc a]`. -/
def computeBID (s : IDSettings) (nv : ℕ) (data : PinData) (cs : List Bool)
    (v a forces : ℕ → ℚ) (M : ℕ → ℕ → ℚ) : Vecf :=
  ⟨nv + fdimID s, fun r =>
    if r < nv then
      -data.nle r - dot nv (M r) a +
        dot (fdimID s) (fun k => computeJcID s data cs k r) forces
    else
      -(computeGammaID s nv data cs v (r - nv)) -
        dot nv (computeJcID s data cs (r - nv)) a⟩

/-- The Hessian `H_` of `IDSolver`, set at initialization and never
rewritten: diagonal `w_acc` on the first `nv` entries and `w_force` on the
following `force_dim_` entries. -/
def computeHID (s : IDSettings) (nv : ℕ) : ℕ → ℕ → ℚ := fun r c =>
  if r = c ∧ r < nv then s.w_acc
  else if r = c ∧ r < nv + fdimID s then s.w_force
  else 0

/-- The data handed to the proxqp kernel for one solve: dimensions, the
box-constraint flag of the QP's construction, and the matrices/vectors of
`qp_->update(H, g, A, b, C, l, u[, l_box, u_box], false)`. -/
structure QPData where
  n : ℕ
  neq : ℕ
  nin : ℕ
  box : Bool
  H : ℕ → ℕ → ℚ
  g : ℕ → ℚ
  A : ℕ → ℕ → ℚ
  b : ℕ → ℚ
  C : ℕ → ℕ → ℚ
  l : ℕ → ℚ
  u : ℕ → ℚ
  lbox : ℕ → ℚ
  ubox : ℕ → ℚ

/-- The QP input assembled by `IDSolver::solve_qp`: the recomputed
matrices together with the initialization-time `H_`, `g_ = 0`,
`u_ = 10⁵·1`, and no box constraints (the `false` of the QP
construction). -/
def idQPInput (s : IDSettings) (nv : ℕ) (data : PinData) (cs : List Bool)
    (v a forces : ℕ → ℚ) (M : ℕ → ℕ → ℚ) : QPData :=
  { n := nDecID s nv, neq := nEqID s nv, nin := 9 * nkID s, box := false
    H := computeHID s nv, g := fun _ => 0
    A := (computeAID s nv data cs M).entry
    b := (computeBID s nv data cs v a forces M).entry
    C := (computeCID s nv cs).entry
    l := (computeLID s cs forces).entry
    u := fun _ => 100000
    lbox := fun _ => 0, ubox := fun _ => 0 }

/-- The mutable members of `IDSolver` that `solve_qp` rewrites. -/
structure IDState where
  A : Matf
  b : Vecf
  C : Matf
  l : Vecf
  solved_acc : Vecf
  solved_forces : Vecf
  solved_torque : Vecf

/-- `IDSolver::solve_qp` (source lines 154–167): rebuild the matrices with
`computeMatrice`, hand them to the proxqp kernel (modelled as a function
of the QP data alone — warm starting off, solver settings fixed at
initialization), and read the decision vector back as
`solved_acc_ = a + x.head(nv)`,
`solved_forces_ = forces + x.segment(nv, force_dim_)`,
`solved_torque_ = x.tail(nv - 6)`. -/
def solveQpID (s : IDSettings) (nv : ℕ) (kernel : QPData → ℕ → ℚ)
    (data : PinData) (cs : List Bool) (v a forces : ℕ → ℚ)
    (M : ℕ → ℕ → ℚ) (_st : IDState) : IDState :=
  let x := kernel (idQPInput s nv data cs v a forces M)
  { A := computeAID s nv data cs M
    b := computeBID s nv data cs v a forces M
    C := computeCID s nv cs
    l := computeLID s cs forces
    solved_acc := ⟨nv, fun r => a r + x r⟩
    solved_forces := ⟨fdimID s, fun r => forces r + x (nv + r)⟩
    solved_torque := ⟨nv - 6, fun r => x (nv + fdimID s + r)⟩ }

/-- The `IKIDSettings` fields the combined IK/ID QP reads.  The PD gain
vectors `Kp_gains[0..2]` / `Kd_gains[0..2]` are entry functions. -/
structure IKIDSettings where
  contact_ids : List ℕ
  fixed_frame_ids : List ℕ
  force_size : ℕ
  mu : ℚ
  Lfoot : ℚ
  Wfoot : ℚ
  w_force : ℚ
  w_qref : ℚ
  w_centroidal : ℚ
  w_footpose : ℚ
  w_baserot : ℚ
  Kp0 : ℕ → ℚ
  Kd0 : ℕ → ℚ
  Kp1 : ℕ → ℚ
  Kd1 : ℕ → ℚ
  Kp2 : ℕ → ℚ
  Kd2 : ℕ → ℚ

/-- `nk_` of `IKIDSolver::initialize`. -/
def nkK (s : IKIDSettings) : ℕ := s.contact_ids.length

/-- `force_dim_ = fs_ * nk_` of `IKIDSolver`. -/
def fdimK (s : IKIDSettings) : ℕ := s.force_size * nkK s

/-- Decision-variable count `n = 2 * nv - 6 + force_dim_` of
`IKIDSolver`. -/
def nDecK (s : IKIDSettings) (nv : ℕ) : ℕ := 2 * nv - 6 + fdimK s

/-- `Cmin_` of `IKIDSolver` (same construction as `IDSolver`'s). -/
def CminK (s : IKIDSettings) : ℕ → ℕ → ℚ :=
  coneGen s.force_size s.mu s.Wfoot s.Lfoot

/-- The lower box bound `l_box_` of `IKIDSolver::initialize` (source
lines 232–235): `-10⁵` everywhere, overwritten on the last `nv - 6`
entries (the joint-torque components) by `-effortLimit.tail(nv - 6)`. -/
def lBoxIKID (s : IKIDSettings) (nv : ℕ) (effortLimit : ℕ → ℚ) :
    ℕ → ℚ := fun idx =>
  if nDecK s nv - (nv - 6) ≤ idx then
    -effortLimit (6 + (idx - (nDecK s nv - (nv - 6))))
  else -100000

/-- The upper box bound `u_box_` of `IKIDSolver::initialize` (source
lines 236–239): `10⁵` everywhere, overwritten on the last `nv - 6`
entries by `effortLimit.tail(nv - 6)`. -/
def uBoxIKID (s : IKIDSettings) (nv : ℕ) (effortLimit : ℕ → ℚ) :
    ℕ → ℚ := fun idx =>
  if nDecK s nv - (nv - 6) ≤ idx then
    effortLimit (6 + (idx - (nDecK s nv - (nv - 6))))
  else 100000

/-- `C_` after `IKIDSolver::computeMatrice` (source lines 342, 381). -/
def computeCK (s : IKIDSettings) (nv : ℕ) (cs : List Bool) : Matf :=
  coneCMat (nkK s) s.force_size nv (CminK s) cs

/-- `l_` after `IKIDSolver::computeMatrice` (source lines 341,
370–379). -/
def computeLK (s : IKIDSettings) (cs : List Bool) (forces : ℕ → ℚ) : Vecf :=
  coneLVec (nkK s) s.force_size s.mu s.Wfoot s.Lfoot cs forces

/-- The PD error terms of `IKIDSolver`, refreshed by
`computeDifferences` before each solve.  Their computation involves the
SO(3) logarithm of the external geometry library and is treated as opaque
state here: `solve_qp` reads them and never writes them. -/
structure IKIDDiffs where
  q_diff : ℕ → ℚ
  dq_diff : ℕ → ℚ
  foot_diff : ℕ → ℕ → ℚ
  dfoot_diff : ℕ → ℕ → ℚ
  frame_diff : ℕ → ℕ → ℚ
  dframe_diff : ℕ → ℕ → ℚ

/-- The Hessian `H_` after `IKIDSolver::computeMatrice` (source lines
324–328, 351–352, 394–395): the `nv × nv` top-left block is rebuilt as
`w_qref · I + w_centroidal · Agᵀ Ag + Σᵢ w_footpose · Jᵢᵀ Jᵢ +
Σ_frames w_baserot · J_fᵀ J_f` (feet use the full 6-row LOCAL Jacobians,
fixed frames the bottom 3 rows); the `force_dim_` diagonal block keeps its
initialization value `w_force`; everything else stays zero. -/
def computeHK (s : IKIDSettings) (nv : ℕ) (data : PinData) :
    ℕ → ℕ → ℚ := fun r c =>
  if r < nv ∧ c < nv then
    s.w_qref * (if r = c then 1 else 0) +
      s.w_centroidal * dot 6 (fun k => data.Ag k r) (fun k => data.Ag k c) +
      sumOver (nkK s) (fun i =>
        s.w_footpose *
          dot 6 (fun k => data.jacLoc (s.contact_ids.getD i 0) k r)
            (fun k => data.jacLoc (s.contact_ids.getD i 0) k c)) +
      sumOver s.fixed_frame_ids.length (fun i =>
        s.w_baserot *
          dot 3 (fun k => data.jacLoc (s.fixed_frame_ids.getD i 0) (3 + k) r)
            (fun k => data.jacLoc (s.fixed_frame_ids.getD i 0) (3 + k) c))
  else if r = c ∧ nv ≤ r ∧ r < nv + fdimK s then s.w_force
  else 0

/-- The linear term `g_` after `IKIDSolver::computeMatrice` (source lines
330–334, 354–359, 396–401): posture PD, centroidal-momentum-rate tracking,
foot-pose PD and fixed-frame-orientation PD, accumulated on the first `nv`
entries; the tail stays zero. -/
def computeGK (s : IKIDSettings) (nv : ℕ) (data : PinData)
    (diffs : IKIDDiffs) (v dH : ℕ → ℚ) : ℕ → ℚ := fun r =>
  if r < nv then
    s.w_qref * (-(s.Kp0 r * diffs.q_diff r) - s.Kd0 r * diffs.dq_diff r) -
      s.w_centroidal *
        dot 6 (fun k => dH k - dot nv (data.dAg k) v) (fun k => data.Ag k r) +
      sumOver (nkK s) (fun i =>
        s.w_footpose *
          dot 6
            (fun k =>
              dot nv (data.jacDotLoc (s.contact_ids.getD i 0) k) v -
                s.Kp1 k * diffs.foot_diff i k - s.Kd1 k * diffs.dfoot_diff i k)
            (fun k => data.jacLoc (s.contact_ids.getD i 0) k r)) +
      sumOver s.fixed_frame_ids.length (fun i =>
        s.w_baserot *
          dot 3
            (fun k =>
              dot nv (data.jacDotLoc (s.fixed_frame_ids.getD i 0) (3 + k)) v -
                s.Kp2 k * diffs.frame_diff i k -
                s.Kd2 k * diffs.dframe_diff i k)
            (fun k => data.jacLoc (s.fixed_frame_ids.getD i 0) (3 + k) r))
  else 0

/-- The equality matrix `A_` after `IKIDSolver::computeMatrice` (source
lines 336–337, 363–365, 383–384): top-left `M`, top-right `-S`, and per
*active* contact the blocks `-Jᵢᵀ` (columns of contact `i`'s forces) and
`Jᵢ` (rows of contact `i`'s no-slip constraint); both blocks are
explicitly zeroed for inactive contacts.  The block shapes match the
`force_size = 6` configuration the solver is built for. -/
def computeAK (s : IKIDSettings) (nv : ℕ) (data : PinData) (cs : List Bool)
    (M : ℕ → ℕ → ℚ) : Matf :=
  ⟨nv + fdimK s, nDecK s nv, fun r c =>
    if r < nv then
      if c < nv then M r c
      else if c < nv + fdimK s then
        (let i := (c - nv) / s.force_size
         if i < nkK s ∧ cs.getD i false = true then
           -(data.jacLoc (s.contact_ids.getD i 0) ((c - nv) % s.force_size) r)
         else 0)
      else -(if r = c - nv - fdimK s + 6 then (1 : ℚ) else 0)
    else
      (let i := (r - nv) / s.force_size
       if c < nv ∧ i < nkK s ∧ cs.getD i false = true then
         data.jacLoc (s.contact_ids.getD i 0) ((r - nv) % s.force_size) c
       else 0)⟩

/-- The equality right-hand side `b_` after `IKIDSolver::computeMatrice`
(source lines 339–340, 366–368): `-nle` plus, per active contact,
`Jᵢᵀ fᵢ` on the head and `-J̇ᵢ v` on contact `i`'s tail block. -/
def computeBK (s : IKIDSettings) (nv : ℕ) (data : PinData) (cs : List Bool)
    (v forces : ℕ → ℚ) : Vecf :=
  ⟨nv + fdimK s, fun r =>
    if r < nv then
      -data.nle r +
        sumOver (nkK s) (fun i =>
          if cs.getD i false = true then
            dot s.force_size (fun k => data.jacLoc (s.contact_ids.getD i 0) k r)
              (fun k => forces (i * s.force_size + k))
          else 0)
    else
      (let i := (r - nv) / s.force_size
       let j := (r - nv) % s.force_size
       if i < nkK s ∧ cs.getD i false = true then
         -(dot nv (data.jacDotLoc (s.contact_ids.getD i 0) j) v)
       else 0)⟩

/-- The QP input assembled by `IKIDSolver::solve_qp`: the recomputed
matrices, `u_ = 10⁵·1`, and the box bounds built at initialization from
the model's actuator effort limits — the QP is constructed *with* box
constraints (the `true` of its construction). -/
def ikidQPInput (s : IKIDSettings) (nv : ℕ) (effortLimit : ℕ → ℚ)
    (data : PinData) (diffs : IKIDDiffs) (cs : List Bool)
    (v forces dH : ℕ → ℚ) (M : ℕ → ℕ → ℚ) : QPData :=
  { n := nDecK s nv, neq := nv + fdimK s, nin := 9 * nkK s, box := true
    H := computeHK s nv data
    g := computeGK s nv data diffs v dH
    A := (computeAK s nv data cs M).entry
    b := (computeBK s nv data cs v forces).entry
    C := (computeCK s nv cs).entry
    l := (computeLK s cs forces).entry
    u := fun _ => 100000
    lbox := lBoxIKID s nv effortLimit
    ubox := uBoxIKID s nv effortLimit }

/-- The mutable members of `IKIDSolver` that `solve_qp` touches, plus the
PD differences it reads (written only by `computeDifferences`). -/
structure IKIDState where
  diffs : IKIDDiffs
  A : Matf
  b : Vecf
  C : Matf
  l : Vecf
  solved_acc : Vecf
  solved_forces : Vecf
  solved_torque : Vecf

/-- `IKIDSolver::solve_qp` (source lines 405–418): rebuild the matrices
with `computeMatrice` (reading the stored PD differences), hand them to
the proxqp kernel, and read back
`solved_acc_ = x.head(nv)`,
`solved_forces_ = forces + x.segment(nv, force_dim_)`,
`solved_torque_ = x.tail(nv - 6)`. -/
def solveQpIKID (s : IKIDSettings) (nv : ℕ) (effortLimit : ℕ → ℚ)
    (kernel : QPData → ℕ → ℚ) (data : PinData) (cs : List Bool)
    (v forces dH : ℕ → ℚ) (M : ℕ → ℕ → ℚ) (st : IKIDState) : IKIDState :=
  let x := kernel (ikidQPInput s nv effortLimit data st.diffs cs v forces dH M)
  { st with
    A := computeAK s nv data cs M
    b := computeBK s nv data cs v forces
    C := computeCK s nv cs
    l := computeLK s cs forces
    solved_acc := ⟨nv, fun r => x r⟩
    solved_forces := ⟨fdimK s, fun r => forces r + x (nv + r)⟩
    solved_torque := ⟨nv - 6, fun r => x (nv + fdimK s + r)⟩ }

/-! ### Concrete sample data for witnesses and counterexamples -/

/-- A sample stage with both Talos feet at the origin and a zero control
reference. -/
def sampleStage : CStage :=
  { dynMap := [("left_sole_link", [0, 0, 0]), ("right_sole_link", [0, 0, 0])]
    carMap := [("left_sole_link", [0, 0, 0]), ("right_sole_link", [0, 0, 0])]
    aarMap := [("left_sole_link", [0, 0, 0]), ("right_sole_link", [0, 0, 0])]
    controlRef := [0, 0, 0, 0, 0, 0] }

/-- A sample two-foot centroidal problem with point contacts
(`force_size = 3`) and two stages. -/
def sampleProblem : CentroidalProblem :=
  { feetNames := ["left_sole_link", "right_sole_link"]
    force_size := 3
    control_ref := [0, 0, 0, 0, 0, 0]
    stages := [sampleStage, sampleStage] }

/-- A sample stage whose stored control reference differs from the
problem's shared `control_ref_`. -/
def sampleStage2 : CStage :=
  { sampleStage with controlRef := [1, 1, 1, 1, 1, 1] }

/-- A sample problem whose shared `control_ref_` holds values from an
earlier force update, different from what stage 0 stores. -/
def sampleProblem2 : CentroidalProblem :=
  { sampleProblem with
    control_ref := [10, 11, 12, 20, 21, 22]
    stages := [sampleStage2, sampleStage2] }

/-- A rotation by 90° about the z axis (row-major), distinct from the
identity. -/
def rotZ90 : List ℚ := [0, -1, 0, 1, 0, 0, 0, 0, 1]

/-- A sample QP kernel (any fixed function of the QP data works for the
claims about construction / determinism). -/
def kernel0 : QPData → ℕ → ℚ := fun _ _ => 0

/-- Sample pinocchio data with small distinct entries. -/
def pinData0 : PinData :=
  { nle := fun r => (r : ℚ)
    jacLWA := fun id r c => (id : ℚ) + (r : ℚ) / 7 + (c : ℚ) / 11
    jacDotLWA := fun id r c => (id : ℚ) / 2 + (r : ℚ) / 5 + (c : ℚ) / 13
    velLinLWA := fun id r => (id : ℚ) + (r : ℚ) / 3
    velAngLWA := fun id r => (id : ℚ) - (r : ℚ) / 3
    jacLoc := fun id r c => (id : ℚ) - (r : ℚ) / 7 + (c : ℚ) / 11
    jacDotLoc := fun id r c => (id : ℚ) / 3 + (r : ℚ) / 5 - (c : ℚ) / 13
    Ag := fun r c => (r : ℚ) + (c : ℚ) / 2
    dAg := fun r c => (r : ℚ) - (c : ℚ) / 2 }

/-- Sample inverse-dynamics settings: two point contacts, `μ = 1/2`. -/
def sID : IDSettings :=
  { contact_ids := [11, 22], force_size := 3, mu := 1/2, Lfoot := 1/10
    Wfoot := 2/25, w_acc := 1, w_force := 1/100, kd := 10 }

/-- Sample combined IK/ID settings: one wrench contact
(`force_size = 6`), one fixed frame. -/
def sK : IKIDSettings :=
  { contact_ids := [11], fixed_frame_ids := [3], force_size := 6, mu := 1/2
    Lfoot := 1/10, Wfoot := 2/25, w_force := 1/100, w_qref := 1
    w_centroidal := 2, w_footpose := 3, w_baserot := 4
    Kp0 := fun k => (k : ℚ) + 1, Kd0 := fun k => (k : ℚ) + 2
    Kp1 := fun k => (k : ℚ) + 3, Kd1 := fun k => (k : ℚ) + 4
    Kp2 := fun k => (k : ℚ) + 5, Kd2 := fun k => (k : ℚ) + 6 }

/-- Sample PD differences. -/
def diffs0 : IKIDDiffs :=
  { q_diff := fun r => (r : ℚ), dq_diff := fun r => -(r : ℚ)
    foot_diff := fun i k => (i : ℚ) + (k : ℚ)
    dfoot_diff := fun i k => (i : ℚ) - (k : ℚ)
    frame_diff := fun i k => (i : ℚ) * (k : ℚ)
    dframe_diff := fun i k => (i : ℚ) + 2 * (k : ℚ) }

/-- Sample `IDSolver` pre-state (everything zero-sized; the claims are
about what `solve_qp` produces, independently of the pre-state). -/
def idState0 : IDState :=
  { A := ⟨0, 0, fun _ _ => 0⟩, b := ⟨0, fun _ => 0⟩
    C := ⟨0, 0, fun _ _ => 0⟩, l := ⟨0, fun _ => 0⟩
    solved_acc := ⟨0, fun _ => 0⟩, solved_forces := ⟨0, fun _ => 0⟩
    solved_torque := ⟨0, fun _ => 0⟩ }

/-- Sample `IKIDSolver` pre-state carrying the sample PD differences. -/
def ikidState0 : IKIDState :=
  { diffs := diffs0
    A := ⟨0, 0, fun _ _ => 0⟩, b := ⟨0, fun _ => 0⟩
    C := ⟨0, 0, fun _ _ => 0⟩, l := ⟨0, fun _ => 0⟩
    solved_acc := ⟨0, fun _ => 0⟩, solved_forces := ⟨0, fun _ => 0⟩
    solved_torque := ⟨0, fun _ => 0⟩ }

/-- Sample effort-limit vector. -/
def effortLimit0 : ℕ → ℚ := fun n => (n : ℚ) + 50

/-- A sample double-support contact phase. -/
def phase0 : Phase := [("left_sole_link", true), ("right_sole_link", true)]

/-- A sample three-step contact schedule. -/
def sched3 : List Phase := [phase0, phase0, phase0]

/-- A sample MPC state with horizon length `T = 2`. -/
def mpc0 : MPCState := initMPCState 2 [0] [0] sched3

/-- The sample MPC state after a successful `generateFullHorizon` on
`sched3`. -/
def mpc1 : MPCState :=
  { mpc0 with sched := sched3, pos := mpc0.T, running := sched3.take mpc0.T }

/-! ### Helper lemmas -/

theorem lookupA_updateA_self {α : Type} (m : List (String × α)) (k : String)
    (v : α) (h : (lookupA m k).isSome) :
    lookupA (updateA m k v) k = some v := by
  induction m with
  | nil => simp [lookupA] at h
  | cons e rest ih =>
    by_cases he : e.1 = k
    · simp [updateA, lookupA, he]
    · simp only [updateA, List.map_cons, lookupA, if_neg he] at h ⊢
      exact ih h

theorem eeIndex_lt_of_mem {names : List String} {k : String}
    (h : k ∈ names) : eeIndex names k < names.length := by
  induction names with
  | nil => simp at h
  | cons n rest ih =>
    by_cases hn : n = k
    · simp [eeIndex, hn]
    · have hk : k ∈ rest := by
        rcases List.mem_cons.mp h with h1 | h1
        · exact absurd h1.symm hn
        · exact h1
      simp only [eeIndex, if_neg hn, List.length_cons]
      exact Nat.succ_lt_succ (ih hk)

theorem eeIndex_of_not_mem {names : List String} {k : String}
    (h : k ∉ names) : eeIndex names k = names.length := by
  induction names with
  | nil => rfl
  | cons n rest ih =>
    have hn : n ≠ k := fun hcontra => h (hcontra ▸ List.mem_cons_self n rest)
    have hk : k ∉ rest := fun hcontra => h (List.mem_cons_of_mem n hcontra)
    simp only [eeIndex, if_neg hn, List.length_cons]
    exact congrArg Nat.succ (ih hk)

theorem getD_set_self {α : Type} (l : List α) (t : ℕ) (v d : α)
    (h : t < l.length) : (l.set t v).getD t d = v := by
  induction l generalizing t with
  | nil => simp at h
  | cons e rest ih =>
    cases t with
    | zero => rfl
    | succ t' =>
      simp only [List.set_cons_succ, List.getD_cons_succ]
      exact ih t' (by simpa using h)

theorem length_splice (v f : List ℚ) (s len : ℕ) (hf : f.length = len)
    (hle : s + len ≤ v.length) :
    (v.take s ++ f ++ v.drop (s + len)).length = v.length := by
  simp only [List.length_append, List.length_take, List.length_drop, hf]
  omega

theorem drop_splice (v f : List ℚ) (s len : ℕ)
    (hle : s + len ≤ v.length) :
    (v.take s ++ f ++ v.drop (s + len)).drop s = f ++ v.drop (s + len) := by
  have h1 : (v.take s).length = s := by
    simp only [List.length_take]
    omega
  rw [List.append_assoc]
  have h2 := List.drop_left (v.take s) (f ++ v.drop (s + len))
  rwa [h1] at h2

theorem segGet_splice_self (v f : List ℚ) (s len : ℕ)
    (hf : f.length = len) (hle : s + len ≤ v.length) :
    segGet (v.take s ++ f ++ v.drop (s + len)) s len = Except.ok f := by
  unfold segGet
  rw [length_splice v f s len hf hle, if_pos hle, drop_splice v f s len hle]
  have h2 := List.take_left f (v.drop (s + len))
  rw [hf] at h2
  rw [h2]

theorem getElem?_splice_outside (v f : List ℚ) (s len : ℕ)
    (hf : f.length = len) (hle : s + len ≤ v.length) (idx : ℕ)
    (h : idx < s ∨ s + len ≤ idx) :
    (v.take s ++ f ++ v.drop (s + len))[idx]? = v[idx]? := by
  have h1 : (v.take s).length = s := by
    simp only [List.length_take]
    omega
  rcases h with h | h
  · rw [List.append_assoc,
      List.getElem?_append_left (by rw [h1]; exact h), List.getElem?_take]
    simp [h]
  · have h2 : (v.take s ++ f).length = s + len := by
      simp [h1, hf]
    rw [List.getElem?_append_right (by rw [h2]; exact h), h2,
      List.getElem?_drop]
    congr 1
    omega

theorem segGet_splice_disjoint (v f : List ℚ) (s len s' len' : ℕ)
    (hf : f.length = len) (hle : s + len ≤ v.length)
    (hd : s' + len' ≤ s ∨ s + len ≤ s') (hle' : s' + len' ≤ v.length) :
    segGet (v.take s ++ f ++ v.drop (s + len)) s' len' = segGet v s' len' := by
  unfold segGet
  rw [length_splice v f s len hf hle, if_pos hle', if_pos hle']
  congr 1
  apply List.ext_getElem?
  intro n
  rw [List.getElem?_take, List.getElem?_take]
  by_cases hn : n < len'
  · rw [if_pos hn, if_pos hn, List.getElem?_drop, List.getElem?_drop]
    exact getElem?_splice_outside v f s len hf hle (s' + n) (by omega)
  · rw [if_neg hn, if_neg hn]

/-! ### Claim C9 -/

/-- C9: `CentroidalProblem::getReferencePose` always returns an SE(3)
whose rotation part is the identity — only the translation stored in the
stage's contact map is returned — and consequently any rotation passed to
`setReferencePose` is discarded and unrecoverable: two poses with equal
translations yield identical problem states. -/
theorem getReferencePose_identity_rotation
    (p : CentroidalProblem) (t : ℕ) (ee : String) :
    (∀ r : SE3,
      CentroidalProblem.getReferencePose p t ee = Except.ok r → r.rot = idRot)
    ∧ ∀ q q' : SE3, q.trans = q'.trans →
        (CentroidalProblem.setReferencePose p t ee q).1
          = (CentroidalProblem.setReferencePose p t ee q').1 := by
  constructor
  · intro r h
    unfold CentroidalProblem.getReferencePose at h
    split at h
    · exact absurd h (by simp)
    · simp only [Except.ok.injEq] at h
      rw [← h]
  · intro q q' hq
    unfold CentroidalProblem.setReferencePose
    split
    · rfl
    · simp [hq]

/-- Witness for C9 at concrete inputs: the returned rotation is the
identity, and setting a pose with a 90°-rotated orientation produces the
same state as setting the identity-oriented pose with equal
translation. -/
theorem getReferencePose_identity_rotation_witness :
    (SE3.mk idRot [0, 0, 0]).rot = idRot
    ∧ (CentroidalProblem.setReferencePose sampleProblem 0 "left_sole_link"
          ⟨rotZ90, [1, 2, 3]⟩).1
        = (CentroidalProblem.setReferencePose sampleProblem 0 "left_sole_link"
            ⟨idRot, [1, 2, 3]⟩).1 :=
  ⟨(getReferencePose_identity_rotation sampleProblem 0 "left_sole_link").1
      ⟨idRot, [0, 0, 0]⟩ rfl,
   (getReferencePose_identity_rotation sampleProblem 0 "left_sole_link").2
      ⟨rotZ90, [1, 2, 3]⟩ ⟨idRot, [1, 2, 3]⟩ rfl⟩

/-! ### Claim C4 -/

/-- C4 counterexample: setting a reference pose whose rotation is a 90°
turn about z succeeds, but `getReferencePose` immediately afterwards
returns the pose with the *identity* rotation — not the set pose — so the
round trip is not exact as a full SE(3) value. -/
theorem centroidal_pose_roundtrip_cex :
    (CentroidalProblem.setReferencePose sampleProblem 0 "left_sole_link"
        ⟨rotZ90, [1, 2, 3]⟩).2 = none
    ∧ CentroidalProblem.getReferencePose
        (CentroidalProblem.setReferencePose sampleProblem 0 "left_sole_link"
          ⟨rotZ90, [1, 2, 3]⟩).1 0 "left_sole_link"
      = Except.ok ⟨idRot, [1, 2, 3]⟩
    ∧ idRot ≠ rotZ90 :=
  ⟨rfl, rfl, by decide⟩

/-- C4 (amended): after `setReferencePose(t, ee, q)` the pose read back by
`getReferencePose(t, ee)` carries `q`'s translation under the identity
rotation (the rotation of `q` is discarded), and after
`setReferenceForce(t, ee, f)` the force read back by
`getReferenceForce(t, ee)` is exactly `f`. -/
theorem centroidal_reference_roundtrip
    (p : CentroidalProblem) (t : ℕ) (ee : String) (q : SE3) (f : List ℚ)
    (ht : t < p.stages.length)
    (hdyn : (lookupA (p.stages.getD t cstage0).dynMap ee).isSome)
    (hee : ee ∈ p.feetNames)
    (hf : f.length = p.force_size)
    (hcr : p.control_ref.length = p.feetNames.length * p.force_size) :
    CentroidalProblem.getReferencePose
        (CentroidalProblem.setReferencePose p t ee q).1 t ee
      = Except.ok ⟨idRot, q.trans⟩
    ∧ CentroidalProblem.getReferenceForce
        (CentroidalProblem.setReferenceForce p t ee f).1 t ee
      = Except.ok f := by
  have hnle : ¬ p.stages.length ≤ t := by omega
  constructor
  · simp only [CentroidalProblem.setReferencePose, if_neg hnle]
    simp only [CentroidalProblem.getReferencePose, List.length_set,
      if_neg hnle]
    rw [getD_set_self _ t _ cstage0 ht, lookupA_updateA_self _ _ _ hdyn]
    rfl
  · have hidlt : eeIndex p.feetNames ee < p.feetNames.length :=
      eeIndex_lt_of_mem hee
    have hseg : eeIndex p.feetNames ee * p.force_size + p.force_size
        ≤ p.control_ref.length := by
      rw [hcr]
      have h1 : eeIndex p.feetNames ee * p.force_size + p.force_size
          = (eeIndex p.feetNames ee + 1) * p.force_size := by ring
      rw [h1]
      exact Nat.mul_le_mul_right _ hidlt
    have hset : segSet p.control_ref
        (eeIndex p.feetNames ee * p.force_size) p.force_size f
        = Except.ok
          (p.control_ref.take (eeIndex p.feetNames ee * p.force_size) ++ f ++
            p.control_ref.drop
              (eeIndex p.feetNames ee * p.force_size + p.force_size)) := by
      unfold segSet
      rw [if_pos ⟨hf, hseg⟩]
    simp only [CentroidalProblem.setReferenceForce, hset,
      CentroidalProblem.setReferenceControl, if_neg hnle]
    simp only [CentroidalProblem.getReferenceForce,
      CentroidalProblem.getReferenceControl, List.length_set, if_neg hnle]
    rw [getD_set_self _ t _ cstage0 ht]
    exact segGet_splice_self p.control_ref f
      (eeIndex p.feetNames ee * p.force_size) p.force_size hf hseg

/-- Witness for the amended C4 at concrete inputs. -/
theorem centroidal_reference_roundtrip_witness :
    CentroidalProblem.getReferencePose
        (CentroidalProblem.setReferencePose sampleProblem 1 "right_sole_link"
          ⟨idRot, [4, 5, 6]⟩).1 1 "right_sole_link"
      = Except.ok ⟨idRot, [4, 5, 6]⟩
    ∧ CentroidalProblem.getReferenceForce
        (CentroidalProblem.setReferenceForce sampleProblem 1 "right_sole_link"
          [7, 8, 9]).1 1 "right_sole_link"
      = Except.ok [7, 8, 9] :=
  centroidal_reference_roundtrip sampleProblem 1 "right_sole_link"
    ⟨idRot, [4, 5, 6]⟩ [7, 8, 9] (by decide) (by decide) (by decide)
    (by decide) (by decide)

/-! ### Claim C5 -/

/-- C5 counterexample: `setReferenceForce` with an unknown end-effector
name does not fail with `InvalidArgument` — the unvalidated `std::find`
index sends the segment write out of bounds (`eigenOOB`); and with a valid
name but an out-of-range stage index the operation *does* leave a partial
effect: the shared `control_ref_` member is already overwritten when the
stage check fires. -/
theorem centroidal_accessor_errors_cex :
    (CentroidalProblem.setReferenceForce sampleProblem 0 "unknown_frame"
        [1, 2, 3]).2 = some CErr.eigenOOB
    ∧ CErr.eigenOOB ≠ CErr.invalidArgument
    ∧ (CentroidalProblem.setReferenceForce sampleProblem 5 "left_sole_link"
        [7, 8, 9]).2 = some CErr.invalidArgument
    ∧ (CentroidalProblem.setReferenceForce sampleProblem 5 "left_sole_link"
        [7, 8, 9]).1.control_ref = [7, 8, 9, 0, 0, 0]
    ∧ sampleProblem.control_ref = [0, 0, 0, 0, 0, 0] :=
  ⟨rfl, by decide, rfl, rfl, rfl⟩

/-- C5 (amended): the pose accessors (`setReferencePose`,
`setReferencePoses`, `getReferencePose`) validate the stage index eagerly
and fail with `InvalidArgument` with no effect; `setReferenceForce` and
`getReferenceForce` perform no name or stage validation of their own — an
unknown end-effector name leads to an out-of-bounds Eigen segment access,
and `setReferenceForce` with a valid name but out-of-range stage index
overwrites the shared `control_ref_` member before the stage check, so the
failure leaves a partial effect. -/
theorem centroidal_accessor_errors
    (p : CentroidalProblem) (t : ℕ) (ee : String) (q : SE3)
    (prs : List (String × SE3)) (f : List ℚ) :
    (p.stages.length ≤ t →
      CentroidalProblem.setReferencePose p t ee q
          = (p, some CErr.invalidArgument)
      ∧ CentroidalProblem.setReferencePoses p t prs
          = (p, some CErr.invalidArgument)
      ∧ CentroidalProblem.getReferencePose p t ee
          = Except.error CErr.invalidArgument)
    ∧ (ee ∉ p.feetNames →
        p.control_ref.length = p.feetNames.length * p.force_size →
        0 < p.force_size →
        CentroidalProblem.setReferenceForce p t ee f
          = (p, some CErr.eigenOOB))
    ∧ (t < p.stages.length → ee ∉ p.feetNames →
        (p.stages.getD t cstage0).controlRef.length
          = p.feetNames.length * p.force_size →
        0 < p.force_size →
        CentroidalProblem.getReferenceForce p t ee
          = Except.error CErr.eigenOOB)
    ∧ (p.stages.length ≤ t → ee ∈ p.feetNames → f.length = p.force_size →
        p.control_ref.length = p.feetNames.length * p.force_size →
        CentroidalProblem.setReferenceForce p t ee f
          = ({ p with control_ref :=
                (p.control_ref.take (eeIndex p.feetNames ee * p.force_size)
                  ++ f ++ p.control_ref.drop
                    (eeIndex p.feetNames ee * p.force_size + p.force_size)) },
             some CErr.invalidArgument)) := by
  refine ⟨fun h => ⟨?_, ?_, ?_⟩, fun hnm hcr hfs => ?_,
    fun ht hnm hsc hfs => ?_, fun h hee hf hcr => ?_⟩
  · simp [CentroidalProblem.setReferencePose, if_pos h]
  · simp [CentroidalProblem.setReferencePoses, if_pos h]
  · simp [CentroidalProblem.getReferencePose, if_pos h]
  · have hidx := eeIndex_of_not_mem hnm
    have hcond : ¬ (f.length = p.force_size ∧
        eeIndex p.feetNames ee * p.force_size + p.force_size
          ≤ p.control_ref.length) := by
      rintro ⟨-, h2⟩
      rw [hidx, hcr] at h2
      omega
    simp only [CentroidalProblem.setReferenceForce, segSet, if_neg hcond]
  · have hidx := eeIndex_of_not_mem hnm
    have hnle : ¬ p.stages.length ≤ t := by omega
    have hcond : ¬ (eeIndex p.feetNames ee * p.force_size + p.force_size
        ≤ (p.stages.getD t cstage0).controlRef.length) := by
      intro h2
      rw [hidx, hsc] at h2
      omega
    simp only [CentroidalProblem.getReferenceForce,
      CentroidalProblem.getReferenceControl, if_neg hnle, segGet,
      if_neg hcond]
  · have hidlt : eeIndex p.feetNames ee < p.feetNames.length :=
      eeIndex_lt_of_mem hee
    have hseg : eeIndex p.feetNames ee * p.force_size + p.force_size
        ≤ p.control_ref.length := by
      rw [hcr]
      have h1 : eeIndex p.feetNames ee * p.force_size + p.force_size
          = (eeIndex p.feetNames ee + 1) * p.force_size := by ring
      rw [h1]
      exact Nat.mul_le_mul_right _ hidlt
    have hset : segSet p.control_ref
        (eeIndex p.feetNames ee * p.force_size) p.force_size f
        = Except.ok
          (p.control_ref.take (eeIndex p.feetNames ee * p.force_size) ++ f ++
            p.control_ref.drop
              (eeIndex p.feetNames ee * p.force_size + p.force_size)) := by
      unfold segSet
      rw [if_pos ⟨hf, hseg⟩]
    simp only [CentroidalProblem.setReferenceForce, hset,
      CentroidalProblem.setReferenceControl, if_pos h]

/-- Witness for the amended C5 at concrete inputs. -/
theorem centroidal_accessor_errors_witness :
    CentroidalProblem.setReferencePose sampleProblem 7 "left_sole_link"
        ⟨idRot, [0, 0, 0]⟩ = (sampleProblem, some CErr.invalidArgument)
    ∧ CentroidalProblem.setReferenceForce sampleProblem 0 "unknown_frame"
        [1, 2, 3] = (sampleProblem, some CErr.eigenOOB)
    ∧ CentroidalProblem.getReferenceForce sampleProblem 0 "unknown_frame"
        = Except.error CErr.eigenOOB :=
  ⟨((centroidal_accessor_errors sampleProblem 7 "left_sole_link"
      ⟨idRot, [0, 0, 0]⟩ [] [1, 2, 3]).1 (by decide)).1,
   (centroidal_accessor_errors sampleProblem 0 "unknown_frame"
      ⟨idRot, [0, 0, 0]⟩ [] [1, 2, 3]).2.1 (by decide) (by decide) (by decide),
   (centroidal_accessor_errors sampleProblem 0 "unknown_frame"
      ⟨idRot, [0, 0, 0]⟩ [] [1, 2, 3]).2.2.1 (by decide) (by decide)
      (by decide) (by decide)⟩

/-! ### Claim C10 -/

/-- C10: `CentroidalProblem::setReferenceForce(t, ee, f)` writes through
the single shared `control_ref_` member: stage `t`'s *entire* control
reference becomes the shared vector with only `ee`'s segment replaced by
`f`, so every other end-effector's force reference at stage `t` is
silently overwritten with whatever `control_ref_` currently holds (from
the most recent prior force update), not preserved at stage `t`'s previous
values. -/
theorem setReferenceForce_shared_control_ref
    (p : CentroidalProblem) (t : ℕ) (ee ee' : String) (f : List ℚ)
    (hcr : p.control_ref.length = p.feetNames.length * p.force_size)
    (ht : t < p.stages.length)
    (hee : ee ∈ p.feetNames) (hee' : ee' ∈ p.feetNames)
    (hf : f.length = p.force_size)
    (hne : eeIndex p.feetNames ee' ≠ eeIndex p.feetNames ee) :
    (CentroidalProblem.setReferenceForce p t ee f).2 = none
    ∧ ((CentroidalProblem.setReferenceForce p t ee f).1.stages.getD t
          cstage0).controlRef
        = p.control_ref.take (eeIndex p.feetNames ee * p.force_size) ++ f
            ++ p.control_ref.drop
              (eeIndex p.feetNames ee * p.force_size + p.force_size)
    ∧ CentroidalProblem.getReferenceForce
        (CentroidalProblem.setReferenceForce p t ee f).1 t ee'
      = Except.ok
          ((p.control_ref.drop
              (eeIndex p.feetNames ee' * p.force_size)).take p.force_size) := by
  have hnle : ¬ p.stages.length ≤ t := by omega
  have hidlt : eeIndex p.feetNames ee < p.feetNames.length :=
    eeIndex_lt_of_mem hee
  have hidlt' : eeIndex p.feetNames ee' < p.feetNames.length :=
    eeIndex_lt_of_mem hee'
  have hseg : eeIndex p.feetNames ee * p.force_size + p.force_size
      ≤ p.control_ref.length := by
    rw [hcr]
    have h1 : eeIndex p.feetNames ee * p.force_size + p.force_size
        = (eeIndex p.feetNames ee + 1) * p.force_size := by ring
    rw [h1]
    exact Nat.mul_le_mul_right _ hidlt
  have hseg' : eeIndex p.feetNames ee' * p.force_size + p.force_size
      ≤ p.control_ref.length := by
    rw [hcr]
    have h1 : eeIndex p.feetNames ee' * p.force_size + p.force_size
        = (eeIndex p.feetNames ee' + 1) * p.force_size := by ring
    rw [h1]
    exact Nat.mul_le_mul_right _ hidlt'
  have hdisj : eeIndex p.feetNames ee' * p.force_size + p.force_size
      ≤ eeIndex p.feetNames ee * p.force_size
      ∨ eeIndex p.feetNames ee * p.force_size + p.force_size
        ≤ eeIndex p.feetNames ee' * p.force_size := by
    rcases Nat.lt_or_ge (eeIndex p.feetNames ee') (eeIndex p.feetNames ee)
      with h | h
    · left
      have h1 : eeIndex p.feetNames ee' * p.force_size + p.force_size
          = (eeIndex p.feetNames ee' + 1) * p.force_size := by ring
      rw [h1]
      exact Nat.mul_le_mul_right _ h
    · right
      have h2 : eeIndex p.feetNames ee < eeIndex p.feetNames ee' :=
        Nat.lt_of_le_of_ne h (Ne.symm hne)
      have h1 : eeIndex p.feetNames ee * p.force_size + p.force_size
          = (eeIndex p.feetNames ee + 1) * p.force_size := by ring
      rw [h1]
      exact Nat.mul_le_mul_right _ h2
  have hset : segSet p.control_ref
      (eeIndex p.feetNames ee * p.force_size) p.force_size f
      = Except.ok
        (p.control_ref.take (eeIndex p.feetNames ee * p.force_size) ++ f ++
          p.control_ref.drop
            (eeIndex p.feetNames ee * p.force_size + p.force_size)) := by
    unfold segSet
    rw [if_pos ⟨hf, hseg⟩]
  refine ⟨?_, ?_, ?_⟩
  · simp only [CentroidalProblem.setReferenceForce, hset,
      CentroidalProblem.setReferenceControl, if_neg hnle]
  · simp only [CentroidalProblem.setReferenceForce, hset,
      CentroidalProblem.setReferenceControl, if_neg hnle]
    rw [getD_set_self _ t _ cstage0 ht]
  · simp only [CentroidalProblem.setReferenceForce, hset,
      CentroidalProblem.setReferenceControl, if_neg hnle]
    simp only [CentroidalProblem.getReferenceForce,
      CentroidalProblem.getReferenceControl, List.length_set, if_neg hnle]
    rw [getD_set_self _ t _ cstage0 ht]
    rw [segGet_splice_disjoint p.control_ref f
      (eeIndex p.feetNames ee * p.force_size) p.force_size
      (eeIndex p.feetNames ee' * p.force_size) p.force_size hf hseg hdisj
      hseg']
    unfold segGet
    rw [if_pos hseg']

/-- Witness for C10 at concrete inputs: after updating the left foot's
force, the right foot's force at stage 0 is read back from the shared
`control_ref_` (20, 21, 22) rather than the stage's previously stored
values (1, 1, 1). -/
theorem setReferenceForce_shared_control_ref_witness :
    (CentroidalProblem.setReferenceForce sampleProblem2 0 "left_sole_link"
        [5, 5, 5]).2 = none
    ∧ ((CentroidalProblem.setReferenceForce sampleProblem2 0 "left_sole_link"
          [5, 5, 5]).1.stages.getD 0 cstage0).controlRef
        = [5, 5, 5, 20, 21, 22]
    ∧ CentroidalProblem.getReferenceForce
        (CentroidalProblem.setReferenceForce sampleProblem2 0 "left_sole_link"
          [5, 5, 5]).1 0 "right_sole_link"
      = Except.ok [20, 21, 22] := by
  have h := setReferenceForce_shared_control_ref sampleProblem2 0
    "left_sole_link" "right_sole_link" [5, 5, 5] (by decide) (by decide)
    (by decide) (by decide) (by decide) (by decide)
  exact ⟨h.1, h.2.1.trans rfl, h.2.2.trans rfl⟩

/-! ### Claim C1 -/

/-- C1: for the two-foot cyclic contact schedule of period 120
(10 double-support, 50 left-support, 10 double-support, 50 right-support
steps) with horizon `T = 100`, the cycle-horizon generation yields an
initial left-foot takeoff index of 170, right-foot takeoff index of 110,
left-foot landing index of 219 and right-foot landing index of 160; and
after the sequence of 10 iterate/recede steps every takeoff and landing
index in the foot timing tables has decreased by exactly 10
(170 → 160, 110 → 100, 219 → 209, 160 → 150). -/
theorem cycle_horizon_foot_timings :
    footTakeoffs leftContacts 100 = [170]
    ∧ footTakeoffs rightContacts 100 = [110]
    ∧ footLandings leftContacts 100 = [219]
    ∧ footLandings rightContacts 100 = [160]
    ∧ recedeTimesN 120 10 (footTakeoffs leftContacts 100) = [160]
    ∧ recedeTimesN 120 10 (footTakeoffs rightContacts 100) = [100]
    ∧ recedeTimesN 120 10 (footLandings leftContacts 100) = [209]
    ∧ recedeTimesN 120 10 (footLandings rightContacts 100) = [150] := by
  decide

/-! ### Claim C2 -/

theorem wfMPC_iterate (f g : List ℚ → List ℚ) (x : List ℚ) (m : MPCState)
    (hT : 0 < m.T) (h : wfMPC m) :
    wfMPC (iterateMPC f g x m) ∧ (iterateMPC f g x m).T = m.T := by
  obtain ⟨h1, h2, h3⟩ := h
  refine ⟨⟨?_, ?_, ?_⟩, rfl⟩
  · simp only [iterateMPC, recedeMPC, List.length_append,
      List.length_tail, List.length_cons, List.length_nil]
    omega
  · simp only [iterateMPC, recedeMPC, List.length_append, List.length_tail,
      List.length_map, List.length_cons, List.length_nil]
    omega
  · simp only [iterateMPC, recedeMPC, List.length_append, List.length_tail,
      List.length_map, List.length_cons, List.length_nil]
    omega

theorem wfMPC_iterateN (f g : List ℚ → List ℚ) (x : List ℚ) (n : ℕ)
    (m : MPCState) (hT : 0 < m.T) (h : wfMPC m) :
    wfMPC (iterateMPCN f g x n m) ∧ (iterateMPCN f g x n m).T = m.T := by
  induction n generalizing m with
  | zero => exact ⟨h, rfl⟩
  | succ n ih =>
    obtain ⟨hw, hT'⟩ := wfMPC_iterate f g x m hT h
    obtain ⟨hw', hT''⟩ := ih (iterateMPC f g x m) (hT' ▸ hT) hw
    exact ⟨hw', hT''.trans hT'⟩

/-- C2: for every contact schedule of length at least `T` (equivalently:
whenever `generateFullHorizon` succeeds) and after every subsequent number
of iterate/recede operations, the horizon buffer holds exactly `T + 1`
stages (`T` running stages plus the terminal stage), the state trajectory
`xs_` has length `T + 1` and the control trajectory `us_` has length `T`;
these lengths never change. -/
theorem mpc_horizon_length_invariant
    (m : MPCState) (cs : List Phase) (m' : MPCState)
    (f g : List ℚ → List ℚ) (x : List ℚ) (n : ℕ)
    (hT : 0 < m.T) (hwf : wfMPC m)
    (hgen : generateFullHorizon m cs = Except.ok m') :
    horizonStageCount (iterateMPCN f g x n m') = m.T + 1
    ∧ (iterateMPCN f g x n m').xs.length = m.T + 1
    ∧ (iterateMPCN f g x n m').us.length = m.T := by
  unfold generateFullHorizon at hgen
  split at hgen
  · exact absurd hgen (by simp)
  · rename_i hlen
    simp only [Except.ok.injEq] at hgen
    have hwf' : wfMPC m' := by
      rw [← hgen]
      obtain ⟨-, h2, h3⟩ := hwf
      refine ⟨?_, h2, h3⟩
      simp only [List.length_take]
      omega
    have hT' : m'.T = m.T := by rw [← hgen]
    obtain ⟨⟨hw1, hw2, hw3⟩, hwT⟩ :=
      wfMPC_iterateN f g x n m' (hT' ▸ hT) hwf'
    unfold horizonStageCount
    rw [hw1, hw2, hw3, hwT, hT']
    exact ⟨rfl, rfl, rfl⟩

/-- Witness for C2 at a concrete schedule (`T = 2`, three phases, four
iterate calls). -/
theorem mpc_horizon_length_invariant_witness :
    horizonStageCount (iterateMPCN (fun w => w) (fun w => w) [1] 4 mpc1) = 3
    ∧ (iterateMPCN (fun w => w) (fun w => w) [1] 4 mpc1).xs.length = 3
    ∧ (iterateMPCN (fun w => w) (fun w => w) [1] 4 mpc1).us.length = 2 :=
  mpc_horizon_length_invariant mpc0 sched3 mpc1 (fun w => w) (fun w => w)
    [1] 4 (by decide) ⟨rfl, rfl, rfl⟩ rfl

/-! ### Claim C3 -/

/-- C3: every call to `IDSolver::solve_qp` or `IKIDSolver::solve_qp`
leaves the QP matrix and vector dimensions at the values fixed at
initialization from `(nv, nk, force_size)` — `A` is `(nv + fs·nk) ×
(2nv − 6 + fs·nk)`, `C` is `9nk × (2nv − 6 + fs·nk)`, with matching `b`
and `l` sizes, for any inputs whatsoever; and for every contact marked
inactive in `contact_state`, that contact's 9 inequality rows of `C` and
the corresponding entries of `l` are zero while the rows remain present
(the row count stays `9 · nk`). -/
theorem qp_fixed_dims_inactive_rows
    (s : IDSettings) (nv : ℕ) (ker : QPData → ℕ → ℚ) (data : PinData)
    (cs : List Bool) (v a forces : ℕ → ℚ) (M : ℕ → ℕ → ℚ) (st : IDState)
    (sk : IKIDSettings) (nvK : ℕ) (eL : ℕ → ℚ) (kerK : QPData → ℕ → ℚ)
    (dataK : PinData) (csK : List Bool) (vK fK dHK : ℕ → ℚ)
    (MK : ℕ → ℕ → ℚ) (stK : IKIDState) :
    ((solveQpID s nv ker data cs v a forces M st).A.rows = nEqID s nv
      ∧ (solveQpID s nv ker data cs v a forces M st).A.cols = nDecID s nv
      ∧ (solveQpID s nv ker data cs v a forces M st).b.size = nEqID s nv
      ∧ (solveQpID s nv ker data cs v a forces M st).C.rows = 9 * nkID s
      ∧ (solveQpID s nv ker data cs v a forces M st).C.cols = nDecID s nv
      ∧ (solveQpID s nv ker data cs v a forces M st).l.size = 9 * nkID s)
    ∧ (∀ i j c, i < nkID s → cs.getD i false = false → j < 9 →
        (solveQpID s nv ker data cs v a forces M st).C.entry (9 * i + j) c = 0
        ∧ (solveQpID s nv ker data cs v a forces M st).l.entry (9 * i + j) = 0)
    ∧ ((solveQpIKID sk nvK eL kerK dataK csK vK fK dHK MK stK).A.rows
          = nvK + fdimK sk
      ∧ (solveQpIKID sk nvK eL kerK dataK csK vK fK dHK MK stK).A.cols
          = nDecK sk nvK
      ∧ (solveQpIKID sk nvK eL kerK dataK csK vK fK dHK MK stK).b.size
          = nvK + fdimK sk
      ∧ (solveQpIKID sk nvK eL kerK dataK csK vK fK dHK MK stK).C.rows
          = 9 * nkK sk
      ∧ (solveQpIKID sk nvK eL kerK dataK csK vK fK dHK MK stK).C.cols
          = nDecK sk nvK
      ∧ (solveQpIKID sk nvK eL kerK dataK csK vK fK dHK MK stK).l.size
          = 9 * nkK sk)
    ∧ (∀ i j c, i < nkK sk → csK.getD i false = false → j < 9 →
        (solveQpIKID sk nvK eL kerK dataK csK vK fK dHK MK stK).C.entry
            (9 * i + j) c = 0
        ∧ (solveQpIKID sk nvK eL kerK dataK csK vK fK dHK MK stK).l.entry
            (9 * i + j) = 0) := by
  refine ⟨⟨rfl, rfl, rfl, rfl, rfl, rfl⟩, fun i j c hi hin hj => ⟨?_, ?_⟩,
    ⟨rfl, rfl, rfl, rfl, rfl, rfl⟩, fun i j c hi hin hj => ⟨?_, ?_⟩⟩
  · simp only [solveQpID, computeCID, coneCMat]
    rw [show (9 * i + j) / 9 = i from by omega, if_neg]
    rintro ⟨-, hc, -, -⟩
    rw [hin] at hc
    cases hc
  · simp only [solveQpID, computeLID, coneLVec]
    rw [show (9 * i + j) / 9 = i from by omega, if_neg]
    rintro ⟨-, hc⟩
    rw [hin] at hc
    cases hc
  · simp only [solveQpIKID, computeCK, coneCMat]
    rw [show (9 * i + j) / 9 = i from by omega, if_neg]
    rintro ⟨-, hc, -, -⟩
    rw [hin] at hc
    cases hc
  · simp only [solveQpIKID, computeLK, coneLVec]
    rw [show (9 * i + j) / 9 = i from by omega, if_neg]
    rintro ⟨-, hc⟩
    rw [hin] at hc
    cases hc

/-- Witness for C3 at concrete inputs: with contact 1 of the ID solver and
contact 0 of the IK/ID solver inactive, their inequality rows are zero and
the dimensions match the initialization formulas. -/
theorem qp_fixed_dims_inactive_rows_witness :
    (solveQpID sID 8 kernel0 pinData0 [true, false] (fun _ => 1)
        (fun _ => 2) (fun _ => 3) (fun _ _ => 4) idState0).C.entry 9 8 = 0
    ∧ (solveQpID sID 8 kernel0 pinData0 [true, false] (fun _ => 1)
        (fun _ => 2) (fun _ => 3) (fun _ _ => 4) idState0).l.entry 9 = 0
    ∧ (solveQpID sID 8 kernel0 pinData0 [true, false] (fun _ => 1)
        (fun _ => 2) (fun _ => 3) (fun _ _ => 4) idState0).C.rows = 18
    ∧ (solveQpIKID sK 8 effortLimit0 kernel0 pinData0 [false] (fun _ => 1)
        (fun _ => 2) (fun _ => 3) (fun _ _ => 4) ikidState0).C.entry 0 8 = 0
    ∧ (solveQpIKID sK 8 effortLimit0 kernel0 pinData0 [false] (fun _ => 1)
        (fun _ => 2) (fun _ => 3) (fun _ _ => 4) ikidState0).l.entry 0 = 0 := by
  have h := qp_fixed_dims_inactive_rows sID 8 kernel0 pinData0 [true, false]
    (fun _ => 1) (fun _ => 2) (fun _ => 3) (fun _ _ => 4) idState0
    sK 8 effortLimit0 kernel0 pinData0 [false] (fun _ => 1) (fun _ => 2)
    (fun _ => 3) (fun _ _ => 4) ikidState0
  have h1 := h.2.1 1 0 8 (by decide) (by decide) (by decide)
  have h2 := h.2.2.2 0 0 8 (by decide) (by decide) (by decide)
  exact ⟨h1.1, h1.2, h.1.2.2.2.1, h2.1, h2.2⟩

/-! ### Claim C7 -/

/-- C7: for every *active* contact `i`, the `IDSolver` QP contains exactly
9 linear inequality rows for that contact, all drawn from the one fixed
constraint-generator matrix `Cmin_` built at initialization from the
friction coefficient `μ` (and, when the force dimension is 6, the foot
width and length), placed in the columns of contact `i`'s force variables
and zero elsewhere; the total inequality row count is `9 ·
(number of contacts)`. -/
theorem idsolver_active_cone_rows
    (s : IDSettings) (nv : ℕ) (ker : QPData → ℕ → ℚ) (data : PinData)
    (cs : List Bool) (v a forces : ℕ → ℚ) (M : ℕ → ℕ → ℚ) (st : IDState)
    (i j c : ℕ) (hi : i < nkID s) (ha : cs.getD i false = true)
    (hj : j < 9) :
    (solveQpID s nv ker data cs v a forces M st).C.entry (9 * i + j) c
      = (if nv + i * s.force_size ≤ c ∧
            c < nv + i * s.force_size + s.force_size
         then CminID s j (c - (nv + i * s.force_size)) else 0)
    ∧ (solveQpID s nv ker data cs v a forces M st).C.rows = 9 * nkID s := by
  constructor
  · simp only [solveQpID, computeCID, coneCMat]
    rw [show (9 * i + j) / 9 = i from by omega,
      show (9 * i + j) % 9 = j from by omega]
    by_cases hc : nv + i * s.force_size ≤ c ∧
        c < nv + i * s.force_size + s.force_size
    · rw [if_pos ⟨hi, ha, hc.1, hc.2⟩, if_pos hc]
    · rw [if_neg (fun hfull => hc ⟨hfull.2.2.1, hfull.2.2.2⟩), if_neg hc]
  · rfl

/-- Witness for C7 at concrete inputs: row 3 of the active contact 0, read
inside and outside its force-column block. -/
theorem idsolver_active_cone_rows_witness :
    (solveQpID sID 8 kernel0 pinData0 [true, false] (fun _ => 1)
        (fun _ => 2) (fun _ => 3) (fun _ _ => 4) idState0).C.entry 3 8
      = CminID sID 3 0
    ∧ (solveQpID sID 8 kernel0 pinData0 [true, false] (fun _ => 1)
        (fun _ => 2) (fun _ => 3) (fun _ _ => 4) idState0).C.entry 3 0 = 0
    ∧ (solveQpID sID 8 kernel0 pinData0 [true, false] (fun _ => 1)
        (fun _ => 2) (fun _ => 3) (fun _ _ => 4) idState0).C.rows = 18 := by
  have h8 := idsolver_active_cone_rows sID 8 kernel0 pinData0 [true, false]
    (fun _ => 1) (fun _ => 2) (fun _ => 3) (fun _ _ => 4) idState0
    0 3 8 (by decide) (by decide) (by decide)
  have h0 := idsolver_active_cone_rows sID 8 kernel0 pinData0 [true, false]
    (fun _ => 1) (fun _ => 2) (fun _ => 3) (fun _ _ => 4) idState0
    0 3 0 (by decide) (by decide) (by decide)
  have e8 := h8.1
  have e0 := h0.1
  norm_num at e8 e0
  exact ⟨e8, e0, h8.2⟩

/-! ### Claim C6 -/

/-- C6: in `IKIDSolver`, the QP box constraints bound the joint-torque
components of the decision vector (its last `nv − 6` entries) within plus
or minus the model's actuator effort limits, every remaining box entry is
the ±10⁵ sentinel, and apart from the friction/wrench-cone inequality
blocks (the `9 · nk` rows of `C`) these box constraints are the only
inequality constraints of the QP (built with the box flag on). -/
theorem ikid_box_constraints
    (s : IKIDSettings) (nv : ℕ) (eL : ℕ → ℚ) (data : PinData)
    (diffs : IKIDDiffs) (cs : List Bool) (v forces dH : ℕ → ℚ)
    (M : ℕ → ℕ → ℚ) (hnv : 6 ≤ nv) :
    (∀ k, k < nv - 6 →
      (ikidQPInput s nv eL data diffs cs v forces dH M).ubox
          (nv + fdimK s + k) = eL (6 + k)
      ∧ (ikidQPInput s nv eL data diffs cs v forces dH M).lbox
          (nv + fdimK s + k) = -eL (6 + k))
    ∧ (∀ idx, idx < nv + fdimK s →
        (ikidQPInput s nv eL data diffs cs v forces dH M).ubox idx = 100000
        ∧ (ikidQPInput s nv eL data diffs cs v forces dH M).lbox idx
            = -100000)
    ∧ (ikidQPInput s nv eL data diffs cs v forces dH M).box = true
    ∧ (ikidQPInput s nv eL data diffs cs v forces dH M).nin = 9 * nkK s := by
  have hth : nDecK s nv - (nv - 6) = nv + fdimK s := by
    unfold nDecK
    omega
  refine ⟨fun k hk => ⟨?_, ?_⟩, fun idx hidx => ⟨?_, ?_⟩, rfl, rfl⟩
  · simp only [ikidQPInput, uBoxIKID, hth]
    rw [if_pos (by omega)]
    congr 1
    omega
  · simp only [ikidQPInput, lBoxIKID, hth]
    rw [if_pos (by omega)]
    congr 2
    omega
  · simp only [ikidQPInput, uBoxIKID, hth]
    rw [if_neg (by omega)]
  · simp only [ikidQPInput, lBoxIKID, hth]
    rw [if_neg (by omega)]

/-- Witness for C6 at concrete inputs: `nv = 8`, one wrench contact, so
the torque components are indices 14 and 15 of the decision vector. -/
theorem ikid_box_constraints_witness :
    (ikidQPInput sK 8 effortLimit0 pinData0 diffs0 [true] (fun _ => 1)
        (fun _ => 2) (fun _ => 3) (fun _ _ => 4)).ubox 14 = effortLimit0 6
    ∧ (ikidQPInput sK 8 effortLimit0 pinData0 diffs0 [true] (fun _ => 1)
        (fun _ => 2) (fun _ => 3) (fun _ _ => 4)).lbox 14 = -effortLimit0 6
    ∧ (ikidQPInput sK 8 effortLimit0 pinData0 diffs0 [true] (fun _ => 1)
        (fun _ => 2) (fun _ => 3) (fun _ _ => 4)).ubox 0 = 100000
    ∧ (ikidQPInput sK 8 effortLimit0 pinData0 diffs0 [true] (fun _ => 1)
        (fun _ => 2) (fun _ => 3) (fun _ _ => 4)).box = true
    ∧ (ikidQPInput sK 8 effortLimit0 pinData0 diffs0 [true] (fun _ => 1)
        (fun _ => 2) (fun _ => 3) (fun _ _ => 4)).nin = 9 := by
  have h := ikid_box_constraints sK 8 effortLimit0 pinData0 diffs0 [true]
    (fun _ => 1) (fun _ => 2) (fun _ => 3) (fun _ _ => 4) (by decide)
  have h1 := h.1 0 (by decide)
  have h2 := h.2.1 0 (by decide)
  exact ⟨h1.1, h1.2, h2.1, h.2.2.1, h.2.2.2⟩

/-! ### Claim C8 -/

/-- C8: with the proxqp kernel modelled as a fixed function of the QP data
(warm starting disabled, solver settings fixed at initialization), calling
`solve_qp` twice with identical inputs yields identical solved torque,
solved forces and solved acceleration on both calls, for both `IDSolver`
and `IKIDSolver`: the second call's outputs do not depend on any state the
first call left behind. -/
theorem solve_qp_deterministic
    (s : IDSettings) (nv : ℕ) (ker : QPData → ℕ → ℚ) (data : PinData)
    (cs : List Bool) (v a forces : ℕ → ℚ) (M : ℕ → ℕ → ℚ) (st : IDState)
    (sk : IKIDSettings) (nvK : ℕ) (eL : ℕ → ℚ) (kerK : QPData → ℕ → ℚ)
    (dataK : PinData) (csK : List Bool) (vK fK dHK : ℕ → ℚ)
    (MK : ℕ → ℕ → ℚ) (stK : IKIDState) :
    (solveQpID s nv ker data cs v a forces M
        (solveQpID s nv ker data cs v a forces M st)).solved_torque
      = (solveQpID s nv ker data cs v a forces M st).solved_torque
    ∧ (solveQpID s nv ker data cs v a forces M
        (solveQpID s nv ker data cs v a forces M st)).solved_forces
      = (solveQpID s nv ker data cs v a forces M st).solved_forces
    ∧ (solveQpID s nv ker data cs v a forces M
        (solveQpID s nv ker data cs v a forces M st)).solved_acc
      = (solveQpID s nv ker data cs v a forces M st).solved_acc
    ∧ (solveQpIKID sk nvK eL kerK dataK csK vK fK dHK MK
        (solveQpIKID sk nvK eL kerK dataK csK vK fK dHK MK
          stK)).solved_torque
      = (solveQpIKID sk nvK eL kerK dataK csK vK fK dHK MK stK).solved_torque
    ∧ (solveQpIKID sk nvK eL kerK dataK csK vK fK dHK MK
        (solveQpIKID sk nvK eL kerK dataK csK vK fK dHK MK
          stK)).solved_forces
      = (solveQpIKID sk nvK eL kerK dataK csK vK fK dHK MK stK).solved_forces
    ∧ (solveQpIKID sk nvK eL kerK dataK csK vK fK dHK MK
        (solveQpIKID sk nvK eL kerK dataK csK vK fK dHK MK stK)).solved_acc
      = (solveQpIKID sk nvK eL kerK dataK csK vK fK dHK MK stK).solved_acc :=
  ⟨rfl, rfl, rfl, rfl, rfl, rfl⟩

end SimpleMpc
